import Mathlib

/-!
Verification development for the lorica proxy (cu-library/lorica, main.go).

The Go code is shallowly embedded: Go strings are modelled as Lean strings
where the content is opaque, and as lists of bytes (`List Nat`, each < 256)
wherever byte-level behaviour matters (UTF-8, HMAC-SHA1, byte-wise sorting).
Machine words in SHA-1 are `Nat` reduced modulo 2 ^ 32.
-/

namespace Lorica

/-! ## Bytes of strings (UTF-8, as Go strings are UTF-8 byte sequences) -/

/-- UTF-8 encoding of the scalar value `n`, as bytes. -/
def charBytesN (n : Nat) : List Nat :=
  if n < 128 then [n]
  else if n < 2048 then [192 + n / 64, 128 + n % 64]
  else if n < 65536 then [224 + n / 4096, 128 + n / 64 % 64, 128 + n % 64]
  else [240 + n / 262144, 128 + n / 4096 % 64, 128 + n / 64 % 64, 128 + n % 64]

/-- UTF-8 encoding of one character, as bytes.  Mirrors the standard UTF-8
encoding used by Go source literals and `io.WriteString`. -/
def charBytes (c : Char) : List Nat :=
  charBytesN c.toNat

/-- The UTF-8 bytes of a string. -/
def strBytes (s : String) : List Nat :=
  s.data.flatMap charBytes

/-- Byte-wise lexicographic comparison of byte lists, matching the Go
built-in string comparison used by `sort.Strings`. -/
def bytesLeB : List Nat → List Nat → Bool
  | [], _ => true
  | _ :: _, [] => false
  | a :: as, b :: bs => if a < b then true else if a = b then bytesLeB as bs else false

/-- Byte-wise lexicographic order as a relation. -/
def bytesLe (a b : List Nat) : Prop := bytesLeB a b = true

instance (a b : List Nat) : Decidable (bytesLe a b) :=
  inferInstanceAs (Decidable (bytesLeB a b = true))

/-! ## SHA-1 (FIPS 180-4), words as `Nat` modulo 2 ^ 32 -/

/-- Truncate to a 32-bit word. -/
def w32 (n : Nat) : Nat := n % 4294967296

/-- Rotate a 32-bit word left by `k` bits. -/
def rotl (k x : Nat) : Nat := w32 ((x <<< k) ||| (x >>> (32 - k)))

/-- Big-endian byte rendering of `v` in `n` bytes. -/
def beBytes : Nat → Nat → List Nat
  | 0, _ => []
  | n + 1, v => beBytes n (v / 256) ++ [v % 256]

/-- SHA-1 message padding: append bit 1, zeros, and the 64-bit message bit
length, reaching a multiple of 64 bytes. -/
def sha1Pad (msg : List Nat) : List Nat :=
  let L := msg.length
  let k := (64 + 56 - ((L + 1) % 64)) % 64
  msg ++ [128] ++ List.replicate k 0 ++ beBytes 8 (8 * L)

/-- Big-endian 32-bit words of a byte list (length a multiple of 4). -/
def toWords : List Nat → List Nat
  | b0 :: b1 :: b2 :: b3 :: rest => (((b0 * 256 + b1) * 256 + b2) * 256 + b3) :: toWords rest
  | _ => []

/-- Split a word list into blocks of 16 words; `fuel` bounds the recursion. -/
def chunk16 : Nat → List Nat → List (List Nat)
  | 0, _ => []
  | _, [] => []
  | fuel + 1, ws => ws.take 16 :: chunk16 fuel (ws.drop 16)

/-- One step of the SHA-1 message-schedule extension, on the reversed
schedule (most recent word first). -/
def extendStep (rws : List Nat) : List Nat :=
  rotl 1 ((rws.getD 2 0) ^^^ (rws.getD 7 0) ^^^ (rws.getD 13 0) ^^^ (rws.getD 15 0)) :: rws

/-- The 80-word message schedule of one 16-word block. -/
def schedule (block : List Nat) : List Nat :=
  (extendStep^[64] block.reverse).reverse

/-- The SHA-1 round function for round `t`. -/
def sha1F (t b c d : Nat) : Nat :=
  if t < 20 then (b &&& c) ||| ((b ^^^ 4294967295) &&& d)
  else if t < 40 then b ^^^ c ^^^ d
  else if t < 60 then (b &&& c) ||| (b &&& d) ||| (c &&& d)
  else b ^^^ c ^^^ d

/-- The SHA-1 round constant for round `t`. -/
def sha1K (t : Nat) : Nat :=
  if t < 20 then 1518500249
  else if t < 40 then 1859775393
  else if t < 60 then 2400959708
  else 3395469782

/-- One SHA-1 round: state `(a, b, c, d, e)`, input `(t, w)`. -/
def sha1Round (st : Nat × Nat × Nat × Nat × Nat) (tw : Nat × Nat) : Nat × Nat × Nat × Nat × Nat :=
  let (a, b, c, d, e) := st
  let (t, w) := tw
  (w32 (rotl 5 a + sha1F t b c d + e + sha1K t + w), a, rotl 30 b, c, d)

/-- SHA-1 compression of one 16-word block into the running hash. -/
def sha1Block (h : Nat × Nat × Nat × Nat × Nat) (block : List Nat) : Nat × Nat × Nat × Nat × Nat :=
  let (h0, h1, h2, h3, h4) := h
  let (a, b, c, d, e) := (schedule block).enum.foldl sha1Round h
  (w32 (h0 + a), w32 (h1 + b), w32 (h2 + c), w32 (h3 + d), w32 (h4 + e))

/-- SHA-1 digest (20 bytes) of a byte list. -/
def sha1Bytes (msg : List Nat) : List Nat :=
  let ws := toWords (sha1Pad msg)
  let (h0, h1, h2, h3, h4) :=
    (chunk16 ws.length ws).foldl sha1Block
      (1732584193, 4023233417, 2562383102, 271733878, 3285377520)
  beBytes 4 h0 ++ beBytes 4 h1 ++ beBytes 4 h2 ++ beBytes 4 h3 ++ beBytes 4 h4

/-- HMAC-SHA1 (RFC 2104) of `msg` under `key`. -/
def hmacSha1 (key msg : List Nat) : List Nat :=
  let k0 := if key.length > 64 then sha1Bytes key else key
  let pk := k0 ++ List.replicate (64 - k0.length) 0
  sha1Bytes ((pk.map (fun b => b ^^^ 92)) ++ sha1Bytes ((pk.map (fun b => b ^^^ 54)) ++ msg))

/-! ## Standard Base64 (RFC 4648), as `encoding/base64.StdEncoding` -/

/-- The standard Base64 alphabet. -/
def b64Alphabet : List Char :=
  "ABCDEFGHIJKLMNOPQRSTUVWXYZabcdefghijklmnopqrstuvwxyz0123456789+/".data

/-- The Base64 character for a 6-bit value. -/
def b64c (n : Nat) : Char := b64Alphabet.getD n 'A'

/-- Standard Base64 encoding of a byte list, with `=` padding. -/
def base64 : List Nat → String
  | b0 :: b1 :: b2 :: rest =>
    let n := (b0 * 256 + b1) * 256 + b2
    ⟨[b64c (n / 262144), b64c (n / 4096 % 64), b64c (n / 64 % 64), b64c (n % 64)]⟩ ++ base64 rest
  | [b0, b1] =>
    let n := b0 * 1024 + b1 * 4
    ⟨[b64c (n / 4096), b64c (n / 64 % 64), b64c (n % 64), '=']⟩
  | [b0] =>
    let n := b0 * 16
    ⟨[b64c (n / 64), b64c (n % 64), '=', '=']⟩
  | [] => ""

/-! ## Go `net/url` query parsing, as used by `URL.Query()` in `buildHeader`

`url.Values.Query()` calls `url.ParseQuery` on the raw query.  At this
repository's vintage of Go, `parseQuery` splits the raw query on both
`&` and `;`, skips empty tokens, splits each token at the first `=`
(a missing `=` yields an empty value), and percent-decodes key and value
with `QueryUnescape` (`+` becomes space, `%XY` becomes the byte `0xXY`);
a token whose key or value fails to decode is dropped (its error is
ignored by `Query()`).  All of it operates on bytes. -/

/-- Value of a hexadecimal digit byte, if it is one. -/
def hexDigit (b : Nat) : Option Nat :=
  if 48 ≤ b ∧ b ≤ 57 then some (b - 48)
  else if 97 ≤ b ∧ b ≤ 102 then some (b - 87)
  else if 65 ≤ b ∧ b ≤ 70 then some (b - 55)
  else none

/-- Go `url.QueryUnescape` on bytes: `+` (43) becomes space (32), `%` (37)
followed by two hex digits becomes that byte, a malformed `%` escape is an
error (`none`). -/
def queryUnescape : List Nat → Option (List Nat)
  | [] => some []
  | 37 :: a :: b :: rest =>
    match hexDigit a, hexDigit b with
    | some x, some y => (queryUnescape rest).map (fun r => (16 * x + y) :: r)
    | _, _ => none
  | 37 :: _ => none
  | 43 :: rest => (queryUnescape rest).map (fun r => 32 :: r)
  | c :: rest => (queryUnescape rest).map (fun r => c :: r)

/-- Split a byte list into tokens at every byte satisfying `sep`
(separators are dropped; empty tokens are kept). -/
def splitTokensAux (sep : Nat → Bool) : List Nat → List Nat → List (List Nat)
  | [], acc => [acc.reverse]
  | c :: rest, acc =>
    if sep c then acc.reverse :: splitTokensAux sep rest []
    else splitTokensAux sep rest (c :: acc)

/-- Split a byte list into tokens at every byte satisfying `sep`. -/
def splitTokens (sep : Nat → Bool) (l : List Nat) : List (List Nat) :=
  splitTokensAux sep l []

/-- Split a token at the first `=` (61); without `=` the value is empty,
as in Go. -/
def splitEq : List Nat → List Nat × List Nat
  | [] => ([], [])
  | 61 :: rest => ([], rest)
  | c :: rest => let p := splitEq rest; (c :: p.1, p.2)

/-- Decode one query token into a key-value pair; empty tokens and tokens
that fail to percent-decode are dropped, as in Go `parseQuery`. -/
def parsePair (tok : List Nat) : Option (List Nat × List Nat) :=
  if tok = [] then none
  else
    match queryUnescape (splitEq tok).1, queryUnescape (splitEq tok).2 with
    | some k, some v => some (k, v)
    | _, _ => none

/-- Go `url.ParseQuery` of a raw query, as the list of decoded key-value
pairs in token order.  (`url.Values` groups the pairs into a map, but
`buildHeader` flattens that map back into individual pairs and fully
sorts them, so only the multiset of pairs matters; token order is a
canonical representative of it.) -/
def parseQueryBytes (raw : List Nat) : List (List Nat × List Nat) :=
  (splitTokens (fun c => c == 38 || c == 59) raw).filterMap parsePair

/-- Render a decoded pair as `key=value`, as `key+"="+value` in
`buildHeader`. -/
def renderPair (p : List Nat × List Nat) : List Nat :=
  p.1 ++ 61 :: p.2

/-! ## The canonical signing string and `buildHeader` (main.go 282-317) -/

/-- The rendered `key=value` strings of the parsed query, sorted in
byte-wise ascending order.  Go sorts with `sort.Strings`, whose result on
any permutation of this multiset is this unique sorted list (byte-wise
order on strings is a linear order, so duplicates are identical). -/
def sortedRenderedPairs (raw : List Nat) : List (List Nat) :=
  List.insertionSort bytesLe ((parseQueryBytes raw).map renderPair)

/-- The fifth line of the canonical signing string: the sorted rendered
pairs joined with `&` (`strings.Join(queryStrings, "&")`). -/
def canonicalQueryBytes (raw : List Nat) : List Nat :=
  List.intercalate [38] (sortedRenderedPairs raw)

/-- The canonical signing string (`idString`): accept, timestamp, host,
path and canonical query, newline-joined and newline-terminated. -/
def canonicalString (accept timestamp host path rawQuery : String) : List Nat :=
  strBytes accept ++
    (10 :: (strBytes timestamp ++
      (10 :: (strBytes host ++
        (10 :: (strBytes path ++
          (10 :: (canonicalQueryBytes (strBytes rawQuery) ++ [10]))))))))

/-- `buildHeader` (main.go 282-317): the `Authorization` header value
`Summon {accessID};{base64(HMAC-SHA1(secretKey, idString))}`.  The Go
function reads `accessID` and `secretKey` from package variables and
host, path and raw query from `apiRequestURL`; they are explicit
parameters here. -/
def buildHeader (secretKey accessID accept timestamp host path rawQuery : String) : String :=
  "Summon " ++ accessID ++ ";" ++
    base64 (hmacSha1 (strBytes secretKey) (canonicalString accept timestamp host path rawQuery))

/-! ## Origin matching: `setACAOHeader` (main.go 371-388)

The function is pure apart from writing one response header; it is
modelled as returning the `Access-Control-Allow-Origin` value to set,
`none` meaning the header is not set. -/

/-- Go `unicode.IsSpace`, the predicate used by `strings.TrimSpace`. -/
def goIsSpace (c : Char) : Bool :=
  c = ' ' || c = '\t' || c = '\n' || (11 ≤ c.toNat && c.toNat ≤ 13) ||
    c.toNat = 133 || c.toNat = 160 || c.toNat = 5760 ||
    (8192 ≤ c.toNat && c.toNat ≤ 8202) || c.toNat = 8232 || c.toNat = 8233 ||
    c.toNat = 8239 || c.toNat = 8287 || c.toNat = 12288

/-- Go `strings.TrimSpace`. -/
def goTrimSpace (s : String) : String :=
  ⟨((s.data.dropWhile goIsSpace).reverse.dropWhile goIsSpace).reverse⟩

/-- Go `strings.Split(s, ";")`: the pieces of `s` between occurrences of
`;` (the empty string yields one empty piece). -/
def splitSemicolonsAux : List Char → List Char → List String
  | [], acc => [⟨acc.reverse⟩]
  | c :: rest, acc =>
    if c = ';' then (⟨acc.reverse⟩ : String) :: splitSemicolonsAux rest []
    else splitSemicolonsAux rest (c :: acc)

/-- Go `strings.Split(s, ";")`. -/
def splitSemicolons (s : String) : List String :=
  splitSemicolonsAux s.data []

/-- The loop of `setACAOHeader`: the first trimmed, non-empty configured
origin equal to the request `Origin`. -/
def firstAllowedOrigin : List String → String → Option String
  | [], _ => none
  | piece :: rest, origin =>
    let okOrigin := goTrimSpace piece
    if okOrigin ≠ "" ∧ okOrigin = origin then some okOrigin
    else firstAllowedOrigin rest origin

/-- `setACAOHeader` (main.go 371-388): the `Access-Control-Allow-Origin`
value to set for a request with the given `Origin` header, or `none`. -/
def setACAOHeader (allowedOrigins origin : String) : Option String :=
  if allowedOrigins = "*" then some "*"
  else if allowedOrigins ≠ "" then firstAllowedOrigin (splitSemicolons allowedOrigins) origin
  else none

/-! ## The request handler `proxyHandler` (main.go 151-279) -/

/-- Go `http.StatusText`, restricted to the codes this program sends. -/
def statusText (code : Nat) : String :=
  if code = 400 then "Bad Request"
  else if code = 405 then "Method Not Allowed"
  else if code = 500 then "Internal Server Error"
  else ""

/-- A response written to the client. -/
structure HttpResponse where
  status : Nat
  headers : List (String × String)
  body : String
deriving DecidableEq

/-- `sendError` (main.go 320-327): an HTML error page with the given
status code and message. -/
def sendError (statuscode : Nat) (message : String) : HttpResponse :=
  { status := statuscode
    headers := [("Content-Type", "text/html; charset=utf-8")]
    body := "<html><head></head><body><pre>" ++ toString statuscode ++ " " ++
      statusText statuscode ++ " - " ++ message ++ "</pre></body></html>" }

/-- The terminal preflight success response (main.go 182-191): implicit
status 200, empty body, the three fixed CORS headers, and the
`Access-Control-Allow-Origin` value when `setACAOHeader` produced one.
`DefaultMaxAge` is the constant `"604800"`.  (Go stores response headers
in a map; the list order here is the order the code sets them in.) -/
def preflightResponse (acao : Option String) : HttpResponse :=
  { status := 200
    headers := [("Access-Control-Allow-Methods", "GET"),
                ("Access-Control-Allow-Headers", "x-summon-session-id"),
                ("Access-Control-Max-Age", "604800")] ++
      (match acao with
       | some o => [("Access-Control-Allow-Origin", o)]
       | none => [])
    body := "" }

/-- The inbound request fields the handler inspects.  Go's `Header.Get`
returns the empty string for an absent header, so every field is a
string and `""` means the header is absent.  Field-to-header mapping:
`origin` is `Origin`, `acrMethod` is `Access-Control-Request-Method`,
`acrHeader` is `Access-Control-Request-Header` (the exact name the code
passes to `Header.Get` on main.go line 175), `acrHeaders` is
`Access-Control-Request-Headers` (the standard CORS preflight header,
which the code never reads), `accept` is `Accept`, `sessionId` is
`x-summon-session-id`.  `path` and `rawQuery` are `r.URL.Path` and
`r.URL.RawQuery`. -/
structure InboundRequest where
  method : String
  origin : String
  acrMethod : String
  acrHeader : String
  acrHeaders : String
  accept : String
  sessionId : String
  path : String
  rawQuery : String
deriving DecidableEq

/-- The configuration the handler reads: the host of the parsed API URL
and the package-variable flags. -/
structure Config where
  apiHost : String
  accessID : String
  secretKey : String
  allowedOrigins : String
deriving DecidableEq

/-- The outbound request to the Summon API built on main.go 212-248.
`timestamp` is the `time.Now().UTC().Format(http.TimeFormat)` value,
passed in explicitly since it is the only impure input. -/
structure OutboundRequest where
  method : String
  host : String
  path : String
  rawQuery : String
  closeConnection : Bool
  accept : String
  xSummonDate : String
  sessionId : Option String
  authorization : String
deriving DecidableEq

/-- Building the outbound API request (main.go 212-248): method fixed to
`"GET"`, path and raw query copied from the inbound request, `Close`
set, `Accept` copied, `x-summon-date` set to the timestamp,
`x-summon-session-id` copied only when non-empty, and `Authorization`
from `buildHeader` on the same URL, accept value and timestamp. -/
def mkAPIRequest (cfg : Config) (timestamp : String) (r : InboundRequest) : OutboundRequest :=
  { method := "GET"
    host := cfg.apiHost
    path := r.path
    rawQuery := r.rawQuery
    closeConnection := true
    accept := r.accept
    xSummonDate := timestamp
    sessionId := if r.sessionId ≠ "" then some r.sessionId else none
    authorization :=
      buildHeader cfg.secretKey cfg.accessID r.accept timestamp cfg.apiHost r.path r.rawQuery }

/-- What the handler does with a request before any upstream I/O: either
it responds terminally (errors and preflight), or it forwards an
outbound request upstream, with an optional `Access-Control-Allow-Origin`
header already set on the pending client response. -/
inductive ProxyOutcome where
  | respond (resp : HttpResponse)
  | forward (acao : Option String) (out : OutboundRequest)
deriving DecidableEq

/-- `proxyHandler` (main.go 151-248) up to the upstream call: the CORS
gate and the construction of the outbound request. -/
def proxyHandler (cfg : Config) (timestamp : String) (r : InboundRequest) : ProxyOutcome :=
  if r.origin ≠ "" then
    if r.method = "OPTIONS" then
      if r.acrMethod = "" then
        .respond (sendError 400
          "Access-Control-Request-Method header should be set for OPTIONS request.")
      else if r.acrMethod ≠ "GET" then
        .respond (sendError 400 "Access-Control-Request-Method header should only be GET.")
      else if r.acrHeader ≠ "" ∧ r.acrHeader ≠ "x-summon-session-id" then
        .respond (sendError 400
          "Access-Control-Request-Header header should only contain x-summon-session-id.")
      else
        .respond (preflightResponse (setACAOHeader cfg.allowedOrigins r.origin))
    else if r.method ≠ "GET" then
      .respond (sendError 405 "Only GET requests accepted.")
    else
      .forward (setACAOHeader cfg.allowedOrigins r.origin) (mkAPIRequest cfg timestamp r)
  else
    .forward none (mkAPIRequest cfg timestamp r)

/-! ## Relaying the upstream response (main.go 262-277) -/

/-- The upstream response, with its body as a byte stream. -/
structure UpstreamResponse where
  statusCode : Nat
  headers : List (String × String)
  body : List Nat
deriving DecidableEq

/-- Go `Header.Get`: the first value for the (canonical) header name, or
the empty string.  Upstream header names are already in Go canonical
form, as `net/http` canonicalizes them while reading the response. -/
def headerGet (hs : List (String × String)) (name : String) : String :=
  match hs.find? (fun p => p.1 == name) with
  | some p => p.2
  | none => ""

/-- The explicit allow-list of upstream response headers relayed to the
client (main.go 263-265). -/
def proxiedHeaders : List String := ["Content-Type"]

/-- What relaying leaves behind: the status and headers written to the
client, the body bytes that reached the client, and whether the upstream
response body was closed. -/
structure RelayResult where
  status : Nat
  headers : List (String × String)
  bodyWritten : List Nat
  upstreamBodyClosed : Bool
deriving DecidableEq

/-- Relaying a successful upstream response (main.go 262-277):
each allow-listed header is copied when non-empty, the status code is
written verbatim, `io.Copy` streams the body until done or until the
client stops accepting bytes (`clientAccepts` is how many bytes the
client write path takes; its error is discarded), and the upstream body
is closed unconditionally afterwards — there is no exit path between
receiving the response and `apiResp.Body.Close()`. -/
def relayResponse (apiResp : UpstreamResponse) (clientAccepts : Nat) : RelayResult :=
  { status := apiResp.statusCode
    headers := proxiedHeaders.filterMap (fun name =>
      if headerGet apiResp.headers name ≠ "" then some (name, headerGet apiResp.headers name)
      else none)
    bodyWritten := apiResp.body.take clientAccepts
    upstreamBodyClosed := true }

/-! ## Definitions taken from the words of the specification

These do not embed the source; they transcribe what the spec sentences
say, so that refinement claims can compare them with the source
embeddings above. -/

/-- The key of a received `key=value` token: the bytes before the first
`=`. -/
def keyOf (tok : List Nat) : List Nat :=
  tok.takeWhile (fun c => c != 61)

/-- Ordering of received tokens by byte-wise ascending key, as claim C1
words it. -/
def keyLe (a b : List Nat) : Prop := bytesLe (keyOf a) (keyOf b)

instance (a b : List Nat) : Decidable (keyLe a b) :=
  inferInstanceAs (Decidable (bytesLe _ _))

/-- Claim C1's recipe for the fifth line of the canonical string: the
query parameters exactly as received (the `&`-separated tokens of the
raw query, with no percent-decoding or re-encoding), each `key=value`
pair rendered literally, sorted in byte-wise ascending order of their
keys, joined with `&`, repeated keys kept as separate pairs. -/
def specCanonicalQueryC1 (raw : List Nat) : List Nat :=
  List.intercalate [38]
    (List.insertionSort keyLe ((splitTokens (fun c => c == 38) raw).filter (fun t => !t.isEmpty)))

/-- Claim C5's origin-matching rule, transcribed: wildcard emits `*`
for every Origin; otherwise split the configured string on `;`, trim
each piece, drop empties, and emit the first piece equal to the request
Origin; otherwise emit nothing (also when the configured list is
empty). -/
def acaoSpecRule (allowedOrigins origin : String) : Option String :=
  if allowedOrigins = "*" then some "*"
  else (((splitSemicolons allowedOrigins).map goTrimSpace).filter (fun p => p != "")).find?
    (fun p => p == origin)

/-- `bytesLe` is total, like the Go string order. -/
instance : IsTotal (List Nat) bytesLe where
  total := by
    intro a
    induction a with
    | nil => intro b; left; rfl
    | cons x xs ih =>
      intro b
      cases b with
      | nil => right; rfl
      | cons y ys =>
        by_cases hxy : x < y
        · left; simp [bytesLe, bytesLeB, hxy]
        · by_cases heq : x = y
          · subst heq
            rcases ih ys with h | h
            · left; simp only [bytesLe, bytesLeB] at h ⊢
              simp [h]
            · right; simp only [bytesLe, bytesLeB] at h ⊢
              simp [h]
          · right
            have hyx : y < x := by omega
            simp [bytesLe, bytesLeB, hyx]

/-- `bytesLe` is transitive, like the Go string order. -/
instance : IsTrans (List Nat) bytesLe where
  trans := by
    intro a
    induction a with
    | nil => intro b c _ _; rfl
    | cons x xs ih =>
      intro b c hab hbc
      cases b with
      | nil => simp [bytesLe, bytesLeB] at hab
      | cons y ys =>
        cases c with
        | nil => simp [bytesLe, bytesLeB] at hbc
        | cons z zs =>
          simp only [bytesLe, bytesLeB] at hab hbc ⊢
          by_cases hxy : x < y
          · by_cases hyz : y < z
            · have hxz : x < z := by omega
              simp [hxz]
            · by_cases hyz2 : y = z
              · subst hyz2; simp [hxy]
              · simp [hyz, hyz2] at hbc
          · by_cases hxy2 : x = y
            · subst hxy2
              by_cases hyz : x < z
              · simp [hyz]
              · by_cases hyz2 : x = z
                · subst hyz2
                  simp [hxy] at hab ⊢
                  simp [hyz] at hbc
                  exact ih ys zs hab hbc
                · simp [hyz, hyz2] at hbc
            · simp [hxy, hxy2] at hab

/-! ## Supporting lemmas -/

/-- Every character scalar value is below `0x110000`. -/
theorem char_toNat_lt (c : Char) : c.toNat < 1114112 := by
  rcases c.valid with h | h
  · exact Nat.lt_trans h (by norm_num)
  · exact h.2

theorem char_eq_of_toNat_eq {c d : Char} (h : c.toNat = d.toNat) : c = d :=
  Char.ext (UInt32.ext h)

theorem charBytesN_ne_nil (n : Nat) : charBytesN n ≠ [] := by
  unfold charBytesN
  split_ifs <;> simp

/-- The first UTF-8 byte determines the length of the encoding. -/
theorem charBytesN_length_eq_of_head_eq {n m : Nat}
    (hn : n < 1114112) (hm : m < 1114112)
    (h : (charBytesN n).headD 0 = (charBytesN m).headD 0) :
    (charBytesN n).length = (charBytesN m).length := by
  unfold charBytesN at h ⊢
  split_ifs at h ⊢ <;> simp_all <;> omega

/-- UTF-8 encoding is injective on scalar values. -/
theorem charBytesN_inj {n m : Nat} (hn : n < 1114112) (hm : m < 1114112)
    (h : charBytesN n = charBytesN m) : n = m := by
  unfold charBytesN at h
  split_ifs at h <;> simp_all <;> omega

/-- UTF-8 encodings are left-cancellable in concatenations. -/
theorem charBytes_append_inj {c d : Char} {u v : List Nat}
    (h : charBytes c ++ u = charBytes d ++ v) : c = d ∧ u = v := by
  have hc := char_toNat_lt c
  have hd := char_toNat_lt d
  have hlen : (charBytes c).length = (charBytes d).length := by
    apply charBytesN_length_eq_of_head_eq hc hd
    obtain ⟨a, as, ha⟩ := List.exists_cons_of_ne_nil (charBytesN_ne_nil c.toNat)
    obtain ⟨b, bs, hb⟩ := List.exists_cons_of_ne_nil (charBytesN_ne_nil d.toNat)
    simp only [charBytes, ha, hb] at h ⊢
    simp only [List.cons_append, List.cons.injEq] at h
    simp [h.1]
  obtain ⟨h1, h2⟩ := List.append_inj h hlen
  exact ⟨char_eq_of_toNat_eq (charBytesN_inj hc hd h1), h2⟩

/-- UTF-8 encoding of character lists is injective. -/
theorem flatMap_charBytes_inj : ∀ cs ds : List Char,
    cs.flatMap charBytes = ds.flatMap charBytes → cs = ds := by
  intro cs
  induction cs with
  | nil =>
    intro ds h
    cases ds with
    | nil => rfl
    | cons d ds =>
      simp only [List.flatMap_nil, List.flatMap_cons] at h
      exact absurd (List.append_eq_nil.mp h.symm).1 (charBytesN_ne_nil d.toNat)
  | cons c cs ih =>
    intro ds h
    cases ds with
    | nil =>
      simp only [List.flatMap_nil, List.flatMap_cons] at h
      exact absurd (List.append_eq_nil.mp h).1 (charBytesN_ne_nil c.toNat)
    | cons d ds =>
      simp only [List.flatMap_cons] at h
      obtain ⟨h1, h2⟩ := charBytes_append_inj h
      rw [h1, ih ds h2]

/-- `strBytes` is injective: distinct strings have distinct UTF-8 bytes. -/
theorem strBytes_inj {s t : String} (h : strBytes s = strBytes t) : s = t := by
  cases s with
  | mk sd =>
    cases t with
    | mk td =>
      have := flatMap_charBytes_inj sd td h
      simp [this]

/-- Right-cancellation of string concatenation. -/
theorem str_append_cancel_right {u v x : String} (h : u ++ x = v ++ x) : u = v := by
  have hd := congrArg String.data h
  rw [String.data_append, String.data_append] at hd
  have h2 := List.append_cancel_right hd
  cases u
  cases v
  exact congrArg String.mk h2

/-- Left-cancellation of string concatenation. -/
theorem str_append_cancel_left {u x y : String} (h : u ++ x = u ++ y) : x = y := by
  have hd := congrArg String.data h
  rw [String.data_append, String.data_append] at hd
  have h2 := List.append_cancel_left hd
  cases x
  cases y
  exact congrArg String.mk h2

/-- The loop of `setACAOHeader` computes the first trimmed non-empty
configured origin equal to the request origin, which is what the
spec's matching rule describes. -/
theorem firstAllowedOrigin_eq_spec (l : List String) (origin : String) :
    firstAllowedOrigin l origin =
      ((l.map goTrimSpace).filter (fun p => p != "")).find? (fun p => p == origin) := by
  induction l with
  | nil => rfl
  | cons piece rest ih =>
    simp only [firstAllowedOrigin, List.map_cons, List.filter_cons]
    by_cases h1 : goTrimSpace piece = ""
    · simp [h1, ih]
    · by_cases h2 : goTrimSpace piece = origin
      · rw [h2] at h1
        simp [h1, h2, List.find?_cons]
      · simp [h1, h2, List.find?_cons, ih]

/-! ## The claims -/

/-- Claim C1, as stated, is false: the claimed recipe (query parameters
taken exactly as received, no percent-decoding, sorted by byte-wise
ascending key) disagrees with the code on the raw query `s=1&s.x=%32`.
The code percent-decodes (`%32` becomes `2`) and sorts the whole rendered
`key=value` strings, which puts `s.x=2` before `s=1`, while sorting by
key puts `s=1` first. -/
theorem claim_c1_counterexample :
    specCanonicalQueryC1 (strBytes "s=1&s.x=%32") ≠
      canonicalQueryBytes (strBytes "s=1&s.x=%32") := by
  decide

/-- Claim C1 (amended): for every raw query, the fifth line of the
canonical signing string joins with `&` a sequence that is sorted in
byte-wise ascending order of the whole rendered `key=value` strings and
is a permutation of the key=value renderings of the Go-parsed
(percent-decoded) query parameters, every occurrence of a repeated key
kept as a separate pair. -/
theorem claim_c1_canonical_query (raw : List Nat) :
    canonicalQueryBytes raw = List.intercalate [38] (sortedRenderedPairs raw) ∧
    List.Sorted bytesLe (sortedRenderedPairs raw) ∧
    List.Perm (sortedRenderedPairs raw) ((parseQueryBytes raw).map renderPair) := by
  refine ⟨rfl, ?_, ?_⟩
  · exact List.sorted_insertionSort bytesLe _
  · exact List.perm_insertionSort bytesLe _

/-- Claim C2: the code never reads the standard preflight header
`Access-Control-Request-Headers`; it reads `Access-Control-Request-Header`
(main.go line 175).  A preflight request carrying
`Access-Control-Request-Headers: bad-news` (and no header of the
misspelled singular name) therefore passes the check and receives the 200
preflight response instead of the 400 that the claim (and the spec)
require. -/
theorem claim_c2_plural_header_not_checked :
    proxyHandler
      ⟨"api.summon.serialssolutions.com", "test", "secret", "http://a.com"⟩
      "Tue, 30 Jun 2009 12:10:24 GMT"
      ⟨"OPTIONS", "http://a.com", "GET", "", "bad-news", "application/xml", "", "/2.0.0/search", ""⟩ =
      ProxyOutcome.respond (preflightResponse (some "http://a.com")) ∧
    (preflightResponse (some "http://a.com")).status = 200 := by
  exact ⟨by decide, rfl⟩

set_option maxRecDepth 10000 in
/-- Claim C3: on the documented Summon example inputs, `buildHeader`
returns exactly `Summon test;3a4+j0Wrrx6LF8X4iwOLDetVOu4=`. -/
theorem claim_c3_test_vector :
    buildHeader "ed2ee2e0-65c1-11de-8a39-0800200c9a66" "test" "application/xml"
      "Tue, 30 Jun 2009 12:10:24 GMT" "api.summon.serialssolutions.com" "/2.0.0/search"
      "s.q=forest&s.ff=ContentType,or,1,15" =
      "Summon test;3a4+j0Wrrx6LF8X4iwOLDetVOu4=" := by
  decide

/-- Claim C4, as stated, is false: the raw queries `a=b` and `a=b&`
differ in exactly one input of the signing function, yet the outputs are
byte-identical, because Go query parsing drops the empty token after `&`
and the canonicalized query is unchanged. -/
theorem claim_c4_counterexample :
    ("a=b" : String) ≠ "a=b&" ∧
    buildHeader "secret" "id" "application/xml" "Tue, 30 Jun 2009 12:10:24 GMT"
        "api.summon.serialssolutions.com" "/2.0.0/search" "a=b" =
      buildHeader "secret" "id" "application/xml" "Tue, 30 Jun 2009 12:10:24 GMT"
        "api.summon.serialssolutions.com" "/2.0.0/search" "a=b&" := by
  refine ⟨by decide, ?_⟩
  have h : canonicalQueryBytes (strBytes "a=b") = canonicalQueryBytes (strBytes "a=b&") := by
    decide
  have hcs : canonicalString "application/xml" "Tue, 30 Jun 2009 12:10:24 GMT"
      "api.summon.serialssolutions.com" "/2.0.0/search" "a=b" =
      canonicalString "application/xml" "Tue, 30 Jun 2009 12:10:24 GMT"
        "api.summon.serialssolutions.com" "/2.0.0/search" "a=b&" := by
    unfold canonicalString
    rw [h]
  unfold buildHeader
  rw [hcs]

/-- Claim C4 (amended): signing is a deterministic pure function —
identical inputs give byte-identical output; changing the `accessID`
alone changes the output; changing exactly one of `accept`, `timestamp`,
`host` or `path` changes the canonical string handed to the HMAC; and
the query string enters the computation only through its
canonicalization, so two raw queries with equal canonicalizations give
byte-identical output. -/
theorem claim_c4_deterministic_signing :
    (∀ sk sk2 id id2 a a2 t t2 h h2 p p2 q q2 : String,
      sk = sk2 → id = id2 → a = a2 → t = t2 → h = h2 → p = p2 → q = q2 →
      buildHeader sk id a t h p q = buildHeader sk2 id2 a2 t2 h2 p2 q2) ∧
    (∀ sk id id2 a t h p q : String, id ≠ id2 →
      buildHeader sk id a t h p q ≠ buildHeader sk id2 a t h p q) ∧
    (∀ a a2 t h p q : String, a ≠ a2 →
      canonicalString a t h p q ≠ canonicalString a2 t h p q) ∧
    (∀ a t t2 h p q : String, t ≠ t2 →
      canonicalString a t h p q ≠ canonicalString a t2 h p q) ∧
    (∀ a t h h2 p q : String, h ≠ h2 →
      canonicalString a t h p q ≠ canonicalString a t h2 p q) ∧
    (∀ a t h p p2 q : String, p ≠ p2 →
      canonicalString a t h p q ≠ canonicalString a t h p2 q) ∧
    (∀ sk id a t h p q q2 : String,
      canonicalQueryBytes (strBytes q) = canonicalQueryBytes (strBytes q2) →
      buildHeader sk id a t h p q = buildHeader sk id a t h p q2) := by
  refine ⟨?_, ?_, ?_, ?_, ?_, ?_, ?_⟩
  · intro sk sk2 id id2 a a2 t t2 h h2 p p2 q q2 e1 e2 e3 e4 e5 e6 e7
    subst e1; subst e2; subst e3; subst e4; subst e5; subst e6; subst e7
    rfl
  · intro sk id id2 a t h p q hne heq
    apply hne
    unfold buildHeader at heq
    generalize base64 (hmacSha1 (strBytes sk) (canonicalString a t h p q)) = D at heq
    have h1 := str_append_cancel_right heq
    have h2 := str_append_cancel_right h1
    exact str_append_cancel_left h2
  · intro a a2 t h p q hne heq
    apply hne
    unfold canonicalString at heq
    exact strBytes_inj (List.append_cancel_right heq)
  · intro a t t2 h p q hne heq
    apply hne
    unfold canonicalString at heq
    have h1 := List.append_cancel_left heq
    injection h1 with h1a h1b
    exact strBytes_inj (List.append_cancel_right h1b)
  · intro a t h h2 p q hne heq
    apply hne
    unfold canonicalString at heq
    have h1 := List.append_cancel_left heq
    injection h1 with h1a h1b
    have h2b := List.append_cancel_left h1b
    injection h2b with h2c h2d
    exact strBytes_inj (List.append_cancel_right h2d)
  · intro a t h p p2 q hne heq
    apply hne
    unfold canonicalString at heq
    have h1 := List.append_cancel_left heq
    injection h1 with h1a h1b
    have h2b := List.append_cancel_left h1b
    injection h2b with h2c h2d
    have h3b := List.append_cancel_left h2d
    injection h3b with h3c h3d
    exact strBytes_inj (List.append_cancel_right h3d)
  · intro sk id a t h p q q2 hq
    have hcs : canonicalString a t h p q = canonicalString a t h p q2 := by
      unfold canonicalString
      rw [hq]
    unfold buildHeader
    rw [hcs]

/-- Claim C4 witness: the amended theorem applied at concrete inputs —
two distinct accept values give distinct canonical strings. -/
theorem claim_c4_witness :
    ("application/json" : String) ≠ "application/xml" ∧
    canonicalString "application/json" "ts" "host" "/p" "q=1" ≠
      canonicalString "application/xml" "ts" "host" "/p" "q=1" :=
  ⟨by decide,
   claim_c4_deterministic_signing.2.2.1 "application/json" "application/xml"
     "ts" "host" "/p" "q=1" (by decide)⟩

/-- Claim C5: the `Access-Control-Allow-Origin` computation of
`setACAOHeader` equals the origin-matching rule stated by the spec:
wildcard always emits `*`; otherwise the configured string is split on
`;`, trimmed, empties dropped, compared case-sensitively, the first
match emitted; no match or an empty configuration emits nothing. -/
theorem claim_c5_origin_matching (allowedOrigins origin : String) :
    setACAOHeader allowedOrigins origin = acaoSpecRule allowedOrigins origin := by
  unfold setACAOHeader acaoSpecRule
  by_cases h1 : allowedOrigins = "*"
  · simp [h1]
  · by_cases h2 : allowedOrigins = ""
    · subst h2
      have e1 : ¬("" : String) = "*" := by decide
      have e2 : ¬("" : String) ≠ "" := by decide
      have hnone : (((splitSemicolons "").map goTrimSpace).filter (fun p => p != "")) =
          ([] : List String) := by decide
      rw [if_neg e1, if_neg e2, if_neg e1, hnone]
      rfl
    · simp [h1, h2, firstAllowedOrigin_eq_spec]

/-- Claim C6: every OPTIONS request with a non-empty Origin that passes
the preflight validations gets the terminal preflight response — status
200, empty body, `Access-Control-Allow-Methods: GET`,
`Access-Control-Allow-Headers: x-summon-session-id`,
`Access-Control-Max-Age: 604800`, and the `Access-Control-Allow-Origin`
value chosen by the origin-matching rule — and nothing is forwarded
upstream.  (The request-headers validation the code performs is on the
header name `Access-Control-Request-Header`; see claim C2.) -/
theorem claim_c6_preflight_success (cfg : Config) (ts : String) (r : InboundRequest)
    (ho : r.origin ≠ "") (hm : r.method = "OPTIONS") (hacrm : r.acrMethod = "GET")
    (hh : r.acrHeader = "" ∨ r.acrHeader = "x-summon-session-id") :
    proxyHandler cfg ts r =
      ProxyOutcome.respond (preflightResponse (setACAOHeader cfg.allowedOrigins r.origin)) ∧
    (preflightResponse (setACAOHeader cfg.allowedOrigins r.origin)).status = 200 ∧
    (preflightResponse (setACAOHeader cfg.allowedOrigins r.origin)).body = "" ∧
    ("Access-Control-Allow-Methods", "GET") ∈
      (preflightResponse (setACAOHeader cfg.allowedOrigins r.origin)).headers ∧
    ("Access-Control-Allow-Headers", "x-summon-session-id") ∈
      (preflightResponse (setACAOHeader cfg.allowedOrigins r.origin)).headers ∧
    ("Access-Control-Max-Age", "604800") ∈
      (preflightResponse (setACAOHeader cfg.allowedOrigins r.origin)).headers := by
  have h1 : ¬r.acrMethod = "" := by rw [hacrm]; decide
  have h2 : ¬r.acrMethod ≠ "GET" := by rw [hacrm]; decide
  have h3 : ¬(r.acrHeader ≠ "" ∧ r.acrHeader ≠ "x-summon-session-id") := by
    rcases hh with hh | hh <;> rw [hh] <;> decide
  refine ⟨?_, rfl, rfl, ?_, ?_, ?_⟩
  · unfold proxyHandler
    rw [if_pos ho, if_pos hm, if_neg h1, if_neg h2, if_neg h3]
  · simp only [preflightResponse]
    exact List.mem_append_left _ (by decide)
  · simp only [preflightResponse]
    exact List.mem_append_left _ (by decide)
  · simp only [preflightResponse]
    exact List.mem_append_left _ (by decide)

/-- Claim C6 witness: the theorem applied to a concrete valid preflight
request whose Origin is on the allow-list. -/
theorem claim_c6_witness :
    (("http://test.com" : String) ≠ "" ∧ ("OPTIONS" : String) = "OPTIONS" ∧
      ("GET" : String) = "GET" ∧ (("" : String) = "" ∨ ("" : String) = "x-summon-session-id")) ∧
    proxyHandler ⟨"api.summon.serialssolutions.com", "test", "secret", "http://test.com"⟩ "ts"
        ⟨"OPTIONS", "http://test.com", "GET", "", "", "application/xml", "", "/search", ""⟩ =
      ProxyOutcome.respond (preflightResponse
        (setACAOHeader "http://test.com" "http://test.com")) :=
  ⟨⟨by decide, rfl, rfl, Or.inl rfl⟩,
   (claim_c6_preflight_success
     ⟨"api.summon.serialssolutions.com", "test", "secret", "http://test.com"⟩ "ts"
     ⟨"OPTIONS", "http://test.com", "GET", "", "", "application/xml", "", "/search", ""⟩
     (by decide) rfl rfl (Or.inl rfl)).1⟩

/-- Claim C7: a request with a non-empty Origin whose method is neither
OPTIONS nor GET is rejected with status 405 and the message
`Only GET requests accepted.` (wrapped in the error HTML page), whatever
its path or query, and nothing is forwarded upstream. -/
theorem claim_c7_only_get (cfg : Config) (ts : String) (r : InboundRequest)
    (ho : r.origin ≠ "") (hopt : r.method ≠ "OPTIONS") (hget : r.method ≠ "GET") :
    proxyHandler cfg ts r = ProxyOutcome.respond (sendError 405 "Only GET requests accepted.") ∧
    (sendError 405 "Only GET requests accepted.").status = 405 ∧
    (sendError 405 "Only GET requests accepted.").body =
      "<html><head></head><body><pre>405 Method Not Allowed - Only GET requests accepted.</pre></body></html>" := by
  refine ⟨?_, rfl, by decide⟩
  unfold proxyHandler
  rw [if_pos ho, if_neg hopt, if_pos hget]

/-- Claim C7 witness: the theorem applied to a concrete POST request
with an Origin header. -/
theorem claim_c7_witness :
    (("http://test.com" : String) ≠ "" ∧ ("POST" : String) ≠ "OPTIONS" ∧
      ("POST" : String) ≠ "GET") ∧
    proxyHandler ⟨"api.summon.serialssolutions.com", "test", "secret", "*"⟩ "ts"
        ⟨"POST", "http://test.com", "", "", "", "", "", "/x", "a=b"⟩ =
      ProxyOutcome.respond (sendError 405 "Only GET requests accepted.") :=
  ⟨⟨by decide, by decide, by decide⟩,
   (claim_c7_only_get ⟨"api.summon.serialssolutions.com", "test", "secret", "*"⟩ "ts"
     ⟨"POST", "http://test.com", "", "", "", "", "", "/x", "a=b"⟩
     (by decide) (by decide) (by decide)).1⟩

/-- Claim C8: relaying a successful upstream response copies the status
code verbatim, copies exactly the `Content-Type` header and only when it
is non-empty, streams the body (all of it when the client keeps
accepting bytes), and closes the upstream body on every exit path,
including when the client write stops early. -/
theorem claim_c8_relay (apiResp : UpstreamResponse) (clientAccepts : Nat) :
    (relayResponse apiResp clientAccepts).status = apiResp.statusCode ∧
    (relayResponse apiResp clientAccepts).headers =
      (if headerGet apiResp.headers "Content-Type" ≠ "" then
        [("Content-Type", headerGet apiResp.headers "Content-Type")]
      else []) ∧
    (relayResponse apiResp clientAccepts).bodyWritten = apiResp.body.take clientAccepts ∧
    (relayResponse apiResp apiResp.body.length).bodyWritten = apiResp.body ∧
    (relayResponse apiResp clientAccepts).upstreamBodyClosed = true := by
  refine ⟨rfl, ?_, rfl, ?_, rfl⟩
  · simp only [relayResponse, proxiedHeaders, List.filterMap_cons, List.filterMap_nil]
    by_cases hct : headerGet apiResp.headers "Content-Type" ≠ "" <;> simp [hct]
  · simp [relayResponse]

/-- Claim C9: when the Origin header is empty the handler performs no
method validation at all — every method reaches the forwarding step —
and the outbound upstream request always uses method GET. -/
theorem claim_c9_no_origin_no_gate (cfg : Config) (ts : String) (r : InboundRequest)
    (ho : r.origin = "") :
    proxyHandler cfg ts r = ProxyOutcome.forward none (mkAPIRequest cfg ts r) ∧
    (mkAPIRequest cfg ts r).method = "GET" := by
  refine ⟨?_, rfl⟩
  unfold proxyHandler
  rw [if_neg (by simp [ho])]

/-- Claim C9 witness: the theorem applied to a concrete DELETE request
without an Origin header. -/
theorem claim_c9_witness :
    (("" : String) = "") ∧
    (proxyHandler ⟨"api.summon.serialssolutions.com", "test", "secret", "*"⟩ "ts"
        ⟨"DELETE", "", "", "", "", "application/json", "", "/x", "a=b"⟩ =
      ProxyOutcome.forward none
        (mkAPIRequest ⟨"api.summon.serialssolutions.com", "test", "secret", "*"⟩ "ts"
          ⟨"DELETE", "", "", "", "", "application/json", "", "/x", "a=b"⟩) ∧
    (mkAPIRequest ⟨"api.summon.serialssolutions.com", "test", "secret", "*"⟩ "ts"
        ⟨"DELETE", "", "", "", "", "application/json", "", "/x", "a=b"⟩).method = "GET") :=
  ⟨rfl,
   claim_c9_no_origin_no_gate ⟨"api.summon.serialssolutions.com", "test", "secret", "*"⟩ "ts"
     ⟨"DELETE", "", "", "", "", "application/json", "", "/x", "a=b"⟩ rfl⟩

/-- Claim C10: preflight acceptance never consults the allow-list — any
non-empty Origin with `Access-Control-Request-Method: GET` and a passing
request-headers check gets a 200 response carrying the three fixed CORS
headers, whatever the configured allow-list; only
`Access-Control-Allow-Origin` is present exactly when the matching rule
produces a value. -/
theorem claim_c10_preflight_ignores_allowlist (cfg : Config) (ts : String) (r : InboundRequest)
    (ho : r.origin ≠ "") (hm : r.method = "OPTIONS") (hacrm : r.acrMethod = "GET")
    (hh : r.acrHeader = "" ∨ r.acrHeader = "x-summon-session-id") :
    ∃ resp, proxyHandler cfg ts r = ProxyOutcome.respond resp ∧
      resp.status = 200 ∧
      ("Access-Control-Allow-Methods", "GET") ∈ resp.headers ∧
      ("Access-Control-Allow-Headers", "x-summon-session-id") ∈ resp.headers ∧
      ("Access-Control-Max-Age", "604800") ∈ resp.headers ∧
      ((∃ v, ("Access-Control-Allow-Origin", v) ∈ resp.headers) ↔
        (∃ o, setACAOHeader cfg.allowedOrigins r.origin = some o)) := by
  have h1 : ¬r.acrMethod = "" := by rw [hacrm]; decide
  have h2 : ¬r.acrMethod ≠ "GET" := by rw [hacrm]; decide
  have h3 : ¬(r.acrHeader ≠ "" ∧ r.acrHeader ≠ "x-summon-session-id") := by
    rcases hh with hh | hh <;> rw [hh] <;> decide
  refine ⟨preflightResponse (setACAOHeader cfg.allowedOrigins r.origin), ?_, rfl, ?_, ?_, ?_, ?_⟩
  · unfold proxyHandler
    rw [if_pos ho, if_pos hm, if_neg h1, if_neg h2, if_neg h3]
  · simp only [preflightResponse]
    exact List.mem_append_left _ (by decide)
  · simp only [preflightResponse]
    exact List.mem_append_left _ (by decide)
  · simp only [preflightResponse]
    exact List.mem_append_left _ (by decide)
  · cases hopt : setACAOHeader cfg.allowedOrigins r.origin with
    | none =>
      simp only [preflightResponse]
      constructor
      · rintro ⟨v, hv⟩
        simp at hv
      · rintro ⟨o, ho2⟩
        exact absurd ho2 (by simp)
    | some o =>
      simp only [preflightResponse]
      constructor
      · intro _; exact ⟨o, rfl⟩
      · intro _
        exact ⟨o, by simp⟩

/-- Claim C10 witness: the theorem applied to a concrete preflight whose
Origin is not on the allow-list — it still succeeds with 200. -/
theorem claim_c10_witness :
    (("http://evil.com" : String) ≠ "" ∧ ("OPTIONS" : String) = "OPTIONS" ∧
      ("GET" : String) = "GET" ∧ (("" : String) = "" ∨ ("" : String) = "x-summon-session-id")) ∧
    (∃ resp, proxyHandler ⟨"api.summon.serialssolutions.com", "test", "secret", "http://a.com"⟩
          "ts" ⟨"OPTIONS", "http://evil.com", "GET", "", "", "", "", "/x", ""⟩ =
        ProxyOutcome.respond resp ∧
      resp.status = 200 ∧
      ("Access-Control-Allow-Methods", "GET") ∈ resp.headers ∧
      ("Access-Control-Allow-Headers", "x-summon-session-id") ∈ resp.headers ∧
      ("Access-Control-Max-Age", "604800") ∈ resp.headers ∧
      ((∃ v, ("Access-Control-Allow-Origin", v) ∈ resp.headers) ↔
        (∃ o, setACAOHeader "http://a.com" "http://evil.com" = some o))) :=
  ⟨⟨by decide, rfl, rfl, Or.inl rfl⟩,
   claim_c10_preflight_ignores_allowlist
     ⟨"api.summon.serialssolutions.com", "test", "secret", "http://a.com"⟩ "ts"
     ⟨"OPTIONS", "http://evil.com", "GET", "", "", "", "", "/x", ""⟩
     (by decide) rfl rfl (Or.inl rfl)⟩

end Lorica
